import Mathlib

/-!
# Morpheme Builder — verification of the question-generation core

A shallow embedding of the Morpheme Builder game sources:

* `src/services/geminiService.ts` — `generateQuestion` and `getHint`, the
  Gemini-backed generation strategy with its hardcoded fallback question;
* the Practice-mode component — `handleCheckSpelling` and `fetchNewQuestion`;
* the Challenge-mode component — `handleCheckAnswer`, `handleShowHint`,
  the skip button, `startGame` and the `localStorage` high score.

The network call and `JSON.parse` are modelled by an explicit `ApiOutcome`
input enumerating the observable results of the call; the ambient
`Math.random()` consumed by the comparator of `Array.prototype.sort` is
modelled by an explicit stream of booleans (`true` means the comparator
returned a negative number, i.e. keep the pair in order).
-/

/-- The `Morpheme` interface of `src/types.ts`: an optional display id, the
surface string, its meaning and its role string (the wire format uses the
plain strings "prefix", "root", "suffix"). -/
structure Morpheme where
  id : Option String
  morpheme : String
  meaning : String
  type : String
deriving DecidableEq, Repr

/-- The `Question` interface of `src/types.ts`. -/
structure Question where
  answer : String
  definition : String
  parts : List String
  bank : List Morpheme
deriving DecidableEq, Repr

/-- The shape of a parsed JSON payload before the validation in
`generateQuestion`; `none` in a field models a missing field, so that the
JavaScript truthiness checks `!questionData.answer` etc. can be stated. -/
structure RawQuestion where
  answer : Option String
  definition : Option String
  parts : Option (List String)
  bank : Option (List Morpheme)
deriving DecidableEq, Repr

/-- One comparison step of `Array.prototype.sort` with the comparator
`() => Math.random() - 0.5` (geminiService.ts lines 95 and 114), modelled as
insertion into an already-processed list: the head coin decides whether the
comparator returned a negative value (keep `x` in front) or not (move past
`y`).  Returns the new list together with the unconsumed coins; an exhausted
coin stream defaults to keeping the element in front. -/
def insertCoin {α : Type} : List Bool → α → List α → List α × List Bool
  | coins, x, [] => ([x], coins)
  | [], x, y :: ys => (x :: y :: ys, [])
  | c :: rest, x, y :: ys =>
    if c then (x :: y :: ys, rest)
    else
      let p := insertCoin rest x ys
      (y :: p.1, p.2)

/-- Comparator-driven sort threading the coin stream, modelling the
random-comparator `sort` call on the bank. -/
def randomSortAux {α : Type} : List Bool → List α → List α × List Bool
  | coins, [] => ([], coins)
  | coins, x :: xs =>
    let p := randomSortAux coins xs
    insertCoin p.2 x p.1

/-- `bank.sort(() => Math.random() - 0.5)` with the comparator outcomes
drawn from the boolean stream `coins`. -/
def randomSort {α : Type} (coins : List Bool) (l : List α) : List α :=
  (randomSortAux coins l).1

/-- All comparator-outcome streams of length `n`, each equally likely when
`Math.random() - 0.5` is a fair sign. -/
def boolStreams : Nat → List (List Bool)
  | 0 => [[]]
  | n + 1 => (boolStreams n).flatMap (fun s => [true :: s, false :: s])

/-- How many of the `2 ^ n` equally likely comparator streams make the
random-comparator sort of `l` produce `target`. -/
def shuffleCount (l target : List Nat) (n : Nat) : Nat :=
  ((boolStreams n).filter (fun c => randomSort c l == target)).length

/-- The observable outcomes of the Gemini call and of `JSON.parse` inside
`generateQuestion` (geminiService.ts lines 74–96): the call can throw, the
response text can fail the `typeof jsonText !== 'string'` check, it can trim
to the empty string, `JSON.parse` can throw, or parsing yields a
`RawQuestion` payload. -/
inductive ApiOutcome where
  | fail
  | noText
  | blankText
  | unparseable
  | parsed (raw : RawQuestion)
deriving DecidableEq, Repr

/-- The validation on the parsed payload (geminiService.ts line 91):
`!questionData.answer || !questionData.definition || !questionData.parts ||
!questionData.bank || questionData.bank.length === 0` throws.  A missing
field and an empty string are falsy; an array is always truthy, so an empty
`parts` array passes while an empty `bank` is caught by the explicit length
check. -/
def validateQuestion (raw : RawQuestion) : Option Question :=
  match raw.answer, raw.definition, raw.parts, raw.bank with
  | some a, some d, some p, some b =>
    if a.isEmpty || d.isEmpty || b.isEmpty then none
    else some (Question.mk a d p b)
  | _, _, _, _ => none

/-- The hardcoded `fallbackBank` of geminiService.ts lines 100–109. -/
def fallbackBank : List Morpheme :=
  [ Morpheme.mk none "un-" "not" "prefix",
    Morpheme.mk none "believe" "to accept as true" "root",
    Morpheme.mk none "-able" "capable of being" "suffix",
    Morpheme.mk none "re-" "again, back" "prefix",
    Morpheme.mk none "vis" "to see" "root",
    Morpheme.mk none "-ion" "act or process" "suffix",
    Morpheme.mk none "pre-" "before" "prefix",
    Morpheme.mk none "port" "to carry" "root" ]

/-- The hardcoded fallback question returned by the catch block of
`generateQuestion` (geminiService.ts lines 110–115); its bank is the
`fallbackBank` shuffled by the random-comparator sort. -/
def fallbackQuestion (coins : List Bool) : Question :=
  Question.mk "unbelievable" "Not capable of being believed."
    ["un-", "believe", "-able"]
    (randomSort coins fallbackBank)

/-- `generateQuestion` of geminiService.ts lines 39–117: on a successful,
validated parse the payload is returned with its bank shuffled in place by
the random-comparator sort; every thrown error (network failure, missing or
blank text, parse failure, validation failure) lands in the catch block and
yields the fallback question.  The `difficulty` argument only affects the
prompt text, never the result shape. -/
def generateQuestion (difficulty : String) (outcome : ApiOutcome)
    (coins : List Bool) : Question :=
  match outcome with
  | ApiOutcome.parsed raw =>
    match validateQuestion raw with
    | some q => Question.mk q.answer q.definition q.parts (randomSort coins q.bank)
    | none => fallbackQuestion coins
  | _ => fallbackQuestion coins

/-- The call `generateQuestion(difficulty, questionAnswerRef.current)` made
by `fetchNewQuestion` in the Practice component: `generateQuestion` declares
only the `difficulty` parameter, and JavaScript discards extra call
arguments, so the excluded-answer argument never reaches the function
body. -/
def generateQuestionWithExclude (difficulty : String)
    (excludeAnswer : Option String) (outcome : ApiOutcome)
    (coins : List Bool) : Question :=
  generateQuestion difficulty outcome coins

/-- The bank held by the code just before the in-place `sort` call: the
parsed payload bank on the validated path, the `fallbackBank` otherwise. -/
def rawBank (outcome : ApiOutcome) : List Morpheme :=
  match outcome with
  | ApiOutcome.parsed raw =>
    match validateQuestion raw with
    | some q => q.bank
    | none => fallbackBank
  | _ => fallbackBank

/-- The outcomes on which `generateQuestion` takes the catch branch: every
outcome except a parse that passes validation. -/
def apiBad (outcome : ApiOutcome) : Bool :=
  match outcome with
  | ApiOutcome.parsed raw => (validateQuestion raw).isNone
  | _ => true

/-- The observable outcomes of the Gemini call inside `getHint`
(geminiService.ts lines 119–139): the call can throw, or it succeeds and
`response.text` either is not a string (`none`) or is some string. -/
inductive HintOutcome where
  | fail
  | ok (text : Option String)
deriving DecidableEq, Repr

/-- `getHint` of geminiService.ts lines 119–139: a thrown error yields the
root-morphemes fallback sentence, a non-string `response.text` yields the
not-available sentence, and any string text is returned verbatim. -/
def getHint (parts : List String) (outcome : HintOutcome) : String :=
  match outcome with
  | HintOutcome.fail =>
    "The root morphemes are the core building blocks of the word\x27s meaning."
  | HintOutcome.ok none => "Hint not available at the moment."
  | HintOutcome.ok (some t) => t

/-- JavaScript `String.prototype.trim`: drop leading and trailing
whitespace. -/
def jsTrim (s : String) : String :=
  String.mk (((s.data.dropWhile Char.isWhitespace).reverse.dropWhile
    Char.isWhitespace).reverse)

/-- JavaScript `String.prototype.toLowerCase`, modelled character-wise. -/
def jsToLower (s : String) : String :=
  String.mk (s.data.map Char.toLower)

/-- `handleCheckSpelling` of the Practice component: the typed word is
correct exactly when `spelledWord.trim().toLowerCase() ===
question.answer.toLowerCase()`. -/
def handleCheckSpelling (spelledWord answer : String) : Bool :=
  jsToLower (jsTrim spelledWord) == jsToLower answer

/-- The judgment made by `handleCheckAnswer` of the Challenge component:
`none` when the guard `!userAnswer.trim()` returns early without judging,
otherwise whether `userAnswer.trim().toLowerCase() ===
question.answer.toLowerCase()`. -/
def handleCheckAnswer (userAnswer answer : String) : Option Bool :=
  if jsTrim userAnswer = "" then none
  else some (jsToLower (jsTrim userAnswer) == jsToLower answer)

/-- The Challenge-mode state the scoring claims are about: the `score` and
`hintUsed` React state variables. -/
structure ChallengeState where
  score : Int
  hintUsed : Bool
deriving DecidableEq, Repr

/-- The player actions that touch `score` or `hintUsed` during a round:
pressing Check with the current input against the current question answer,
requesting a hint, and skipping the question. -/
inductive GameEvent where
  | check (input : String) (answer : String)
  | hint
  | skip
deriving DecidableEq, Repr

/-- One Challenge-mode transition.  `handleCheckAnswer` awards
`hintUsed ? 5 : 10` points on a correct answer and then fetches a new
question (which resets `hintUsed`); `handleShowHint` returns early if
`hintUsed` is already set and otherwise only sets it, never touching the
score; the Skip button sets the score to `Math.max(0, s - 2)` and fetches a
new question. -/
def challengeStep (s : ChallengeState) (e : GameEvent) : ChallengeState :=
  match e with
  | GameEvent.check input answer =>
    match handleCheckAnswer input answer with
    | some true =>
      ChallengeState.mk (s.score + (if s.hintUsed then 5 else 10)) false
    | _ => s
  | GameEvent.hint =>
    if s.hintUsed then s else ChallengeState.mk s.score true
  | GameEvent.skip => ChallengeState.mk (max 0 (s.score - 2)) false

/-- `startGame` of the Challenge component: the score starts at 0 and no
hint is marked used. -/
def startState : ChallengeState :=
  ChallengeState.mk 0 false

/-- `parseInt(localStorage.getItem('morphemeHighScore') || '0')`: a missing
key reads as 0. -/
def readHighScore (stored : Option Nat) : Nat :=
  stored.getD 0

/-- The high-score update in `endTheGame`: the stored value is re-read and
overwritten with the final score exactly when the score strictly exceeds
it. -/
def endTheGame (stored : Option Nat) (score : Nat) : Option Nat :=
  if readHighScore stored < score then some score else stored

/-- A syntactically valid API payload whose bank repeats one morpheme and
covers none of the listed parts; `generateQuestion` accepts it because the
line-91 validation only checks field presence and bank non-emptiness. -/
def dupRaw : RawQuestion :=
  RawQuestion.mk (some "reaction") (some "a response") (some ["re-", "act", "-ion"])
    (some [ Morpheme.mk none "pre-" "before" "prefix",
            Morpheme.mk none "pre-" "before" "prefix" ])

/-! ## Helper lemmas -/

theorem insertCoin_perm {α : Type} (coins : List Bool) (x : α) (ys : List α) :
    ((insertCoin coins x ys).1).Perm (x :: ys) := by
  induction ys generalizing coins with
  | nil => cases coins <;> simp [insertCoin]
  | cons y ys ih =>
    cases coins with
    | nil => simp [insertCoin]
    | cons c rest =>
      by_cases hc : c = true
      · simp [insertCoin, hc]
      · have hc2 : c = false := by simpa using hc
        subst hc2
        simp only [insertCoin, Bool.false_eq_true, if_false]
        exact ((ih rest).cons y).trans (List.Perm.swap x y ys)

theorem randomSort_perm {α : Type} (coins : List Bool) (l : List α) :
    (randomSort coins l).Perm l := by
  unfold randomSort
  induction l generalizing coins with
  | nil => simp [randomSortAux]
  | cons x xs ih =>
    simp only [randomSortAux]
    exact (insertCoin_perm _ x _).trans ((ih _).cons x)

theorem jsToLower_eq_empty {s : String} (h : jsToLower s = "") : s = "" := by
  cases s with
  | mk data =>
    have hmap : data.map Char.toLower = [] := congrArg String.data h
    have hd : data = [] := List.map_eq_nil_iff.mp hmap
    simp [hd]

theorem readHighScore_le_endTheGame (stored : Option Nat) (score : Nat) :
    readHighScore stored ≤ readHighScore (endTheGame stored score) := by
  unfold endTheGame
  split
  · next hlt =>
    unfold readHighScore at hlt ⊢
    simp only [Option.getD_some]
    omega
  · exact Nat.le_refl _

theorem readHighScore_le_foldl (scores : List Nat) (stored : Option Nat) :
    readHighScore stored ≤ readHighScore (scores.foldl endTheGame stored) := by
  induction scores generalizing stored with
  | nil => exact Nat.le_refl _
  | cons sc rest ih =>
    exact Nat.le_trans (readHighScore_le_endTheGame stored sc) (ih _)

theorem challengeStep_score_nonneg (s : ChallengeState) (e : GameEvent)
    (h : 0 ≤ s.score) : 0 ≤ (challengeStep s e).score := by
  cases e with
  | check input answer =>
    cases hj : handleCheckAnswer input answer with
    | none => simp [challengeStep, hj]; exact h
    | some b =>
      cases b with
      | false => simp [challengeStep, hj]; exact h
      | true =>
        simp only [challengeStep, hj]
        by_cases hu : s.hintUsed <;> simp [hu] <;> omega
  | hint =>
    simp only [challengeStep]
    by_cases hu : s.hintUsed <;> simp [hu] <;> exact h
  | skip =>
    simp only [challengeStep]
    exact le_max_left 0 (s.score - 2)

/-! ## Claim theorems -/

/-- Claim C1: whenever the backing call errors or returns a malformed
response, `generateQuestion` returns the fixed hardcoded fallback Question
with answer "unbelievable", definition "Not capable of being believed.",
parts `["un-", "believe", "-able"]`, and a bank of exactly 8 morphemes
containing all three parts plus 5 distinct distractors none of which equals
a part; being a total function, the call never fails. -/
theorem generateQuestion_uses_fallback (d : String) (outcome : ApiOutcome)
    (coins : List Bool) (h : apiBad outcome = true) :
    generateQuestion d outcome coins = fallbackQuestion coins ∧
    (fallbackQuestion coins).answer = "unbelievable" ∧
    (fallbackQuestion coins).definition = "Not capable of being believed." ∧
    (fallbackQuestion coins).parts = ["un-", "believe", "-able"] ∧
    ((fallbackQuestion coins).bank).length = 8 ∧
    (∀ p, p ∈ (fallbackQuestion coins).parts →
      p ∈ ((fallbackQuestion coins).bank).map Morpheme.morpheme) ∧
    ((((fallbackQuestion coins).bank).map Morpheme.morpheme).filter
      (fun x => !(["un-", "believe", "-able"].contains x))).length = 5 ∧
    ((((fallbackQuestion coins).bank).map Morpheme.morpheme).filter
      (fun x => !(["un-", "believe", "-able"].contains x))).Nodup := by
  have hperm : ((fallbackQuestion coins).bank).Perm fallbackBank :=
    randomSort_perm coins fallbackBank
  have hmapperm : (((fallbackQuestion coins).bank).map Morpheme.morpheme).Perm
      (fallbackBank.map Morpheme.morpheme) := hperm.map Morpheme.morpheme
  refine ⟨?_, rfl, rfl, rfl, ?_, ?_, ?_, ?_⟩
  · cases outcome with
    | parsed raw =>
      have hv : validateQuestion raw = none := by
        simpa [apiBad, Option.isNone_iff_eq_none] using h
      simp [generateQuestion, hv]
    | fail => rfl
    | noText => rfl
    | blankText => rfl
    | unparseable => rfl
  · exact hperm.length_eq.trans (by decide)
  · intro p hp
    have hp2 : p ∈ (["un-", "believe", "-able"] : List String) := hp
    have hp3 : p = "un-" ∨ p = "believe" ∨ p = "-able" := by simpa using hp2
    rcases hp3 with rfl | rfl | rfl <;> exact hmapperm.mem_iff.mpr (by decide)
  · exact (hmapperm.filter _).length_eq.trans (by decide)
  · exact ((hmapperm.filter _).nodup_iff).mpr (by decide)

/-- Witness for C1 at the concrete outcome of a thrown network call with an
exhausted coin stream. -/
theorem generateQuestion_uses_fallback_witness :
    apiBad ApiOutcome.fail = true ∧
    (generateQuestion "Medium" ApiOutcome.fail [] = fallbackQuestion [] ∧
    (fallbackQuestion []).answer = "unbelievable" ∧
    (fallbackQuestion []).definition = "Not capable of being believed." ∧
    (fallbackQuestion []).parts = ["un-", "believe", "-able"] ∧
    ((fallbackQuestion []).bank).length = 8 ∧
    (∀ p, p ∈ (fallbackQuestion []).parts →
      p ∈ ((fallbackQuestion []).bank).map Morpheme.morpheme) ∧
    ((((fallbackQuestion []).bank).map Morpheme.morpheme).filter
      (fun x => !(["un-", "believe", "-able"].contains x))).length = 5 ∧
    ((((fallbackQuestion []).bank).map Morpheme.morpheme).filter
      (fun x => !(["un-", "believe", "-able"].contains x))).Nodup) :=
  ⟨rfl, generateQuestion_uses_fallback "Medium" ApiOutcome.fail [] rfl⟩

/-- Claim C2 (counterexample): on the successful path `generateQuestion`
returns the parsed bank unchanged apart from shuffling, so a syntactically
valid payload with a duplicated morpheme and no coverage of `parts` is
passed through: the returned bank has a duplicate surface string and the
part "re-" appears zero times in it. -/
theorem generateQuestion_duplicate_bank :
    ¬ (((generateQuestion "Medium" (ApiOutcome.parsed dupRaw) []).bank.map
        Morpheme.morpheme).Nodup) ∧
    (((generateQuestion "Medium" (ApiOutcome.parsed dupRaw) []).bank.map
        Morpheme.morpheme).count "re-") = 0 ∧
    (generateQuestion "Medium" (ApiOutcome.parsed dupRaw) []).parts
      = ["re-", "act", "-ion"] := by
  decide

/-- Claim C2 (amended): the exactly-once-coverage and no-duplicates
properties hold for every Question produced by the fallback path; the
successful path returns the bank as the API provided it, so there they hold
only if the response already satisfied them. -/
theorem fallback_bank_no_duplicates (coins : List Bool) :
    (((fallbackQuestion coins).bank).map Morpheme.morpheme).count "un-" = 1 ∧
    (((fallbackQuestion coins).bank).map Morpheme.morpheme).count "believe" = 1 ∧
    (((fallbackQuestion coins).bank).map Morpheme.morpheme).count "-able" = 1 ∧
    (((fallbackQuestion coins).bank).map Morpheme.morpheme).Nodup := by
  have hmapperm : (((fallbackQuestion coins).bank).map Morpheme.morpheme).Perm
      (fallbackBank.map Morpheme.morpheme) :=
    (randomSort_perm coins fallbackBank).map Morpheme.morpheme
  refine ⟨?_, ?_, ?_, hmapperm.nodup_iff.mpr (by decide)⟩
  · exact (hmapperm.count_eq "un-").trans (by decide)
  · exact (hmapperm.count_eq "believe").trans (by decide)
  · exact (hmapperm.count_eq "-able").trans (by decide)

/-- Claim C3: `generateQuestion` declares only the difficulty parameter;
JavaScript discards the excluded-answer argument passed by
`fetchNewQuestion`, so with the previous answer "unbelievable" excluded and
the API failing, the same answer "unbelievable" is returned again, and the
result does not depend on the exclusion argument at all. -/
theorem excludeAnswer_ignored :
    (generateQuestionWithExclude "Medium" (some "unbelievable")
      ApiOutcome.fail []).answer = "unbelievable" ∧
    generateQuestionWithExclude "Medium" (some "unbelievable") ApiOutcome.fail []
      = generateQuestionWithExclude "Medium" none ApiOutcome.fail [] :=
  ⟨rfl, rfl⟩

/-- Claim C4 (counterexample): under a fair comparator coin, the
random-comparator sort of a 3-element bank produces the identity
arrangement on 2 of the 8 equally likely coin streams but the reversal on
only 1, so not every permutation of the bank is equally likely. -/
theorem bank_shuffle_not_uniform :
    (List.Perm ([2, 1, 0] : List Nat) [0, 1, 2]) ∧
    shuffleCount [0, 1, 2] [0, 1, 2] 3 = 2 ∧
    shuffleCount [0, 1, 2] [2, 1, 0] 3 = 1 ∧
    shuffleCount [0, 1, 2] [0, 1, 2] 3 ≠ shuffleCount [0, 1, 2] [2, 1, 0] 3 := by
  decide

/-- Claim C4 (amended): the bank shuffle is `Array.prototype.sort` with the
comparator `() => Math.random() - 0.5`, not Fisher–Yates: it always returns
a permutation of the input bank, but the permutations are not equally
likely. -/
theorem bank_shuffle_is_biased_sort :
    (∀ (coins : List Bool) (l : List Morpheme), (randomSort coins l).Perm l) ∧
    shuffleCount [0, 1, 2] [2, 1, 0] 3 ≠ shuffleCount [0, 1, 2] [0, 1, 2] 3 :=
  ⟨fun coins l => randomSort_perm coins l, by decide⟩

/-- Claim C5: for every Question produced by `generateQuestion`, the bank
returned after shuffling is a permutation of the bank held just before the
`sort` call — shuffling never adds, drops, or alters a morpheme. -/
theorem generateQuestion_bank_perm (d : String) (outcome : ApiOutcome)
    (coins : List Bool) :
    ((generateQuestion d outcome coins).bank).Perm (rawBank outcome) := by
  cases outcome with
  | parsed raw =>
    cases hv : validateQuestion raw with
    | some q =>
      simp only [generateQuestion, rawBank, hv]
      exact randomSort_perm coins q.bank
    | none =>
      simp only [generateQuestion, rawBank, hv, fallbackQuestion]
      exact randomSort_perm coins fallbackBank
  | fail => exact randomSort_perm coins fallbackBank
  | noText => exact randomSort_perm coins fallbackBank
  | blankText => exact randomSort_perm coins fallbackBank
  | unparseable => exact randomSort_perm coins fallbackBank

/-- Claim C6 (counterexample): when the backing call succeeds with an empty
string as its text, `getHint` returns that empty string verbatim, so
`getHint` can return an empty string. -/
theorem getHint_returns_empty_text :
    getHint ["re-", "-ion"] (HintOutcome.ok (some "")) = "" := rfl

/-- Claim C6 (amended): `getHint` is total (never throws) and on an error
or a non-string text returns a fixed non-empty fallback string; but a
successful call has its text returned verbatim, including when that text is
the empty string. -/
theorem getHint_fallback_spec (parts : List String) :
    getHint parts HintOutcome.fail
      = "The root morphemes are the core building blocks of the word\x27s meaning." ∧
    getHint parts (HintOutcome.ok none) = "Hint not available at the moment." ∧
    getHint parts HintOutcome.fail ≠ "" ∧
    getHint parts (HintOutcome.ok none) ≠ "" ∧
    (∀ t : String, getHint parts (HintOutcome.ok (some t)) = t) := by
  refine ⟨rfl, rfl, ?_, ?_, fun t => rfl⟩
  · show ("The root morphemes are the core building blocks of the word\x27s meaning." : String) ≠ ""
    decide
  · show ("Hint not available at the moment." : String) ≠ ""
    decide

/-- Claim C7: the stored high score under 'morphemeHighScore' is written at
game end only, and only when the final score strictly exceeds the stored
value (otherwise the store is untouched); consequently the stored high
score never decreases, including across any sequence of games. -/
theorem highScore_never_decreases (stored : Option Nat) (score : Nat) :
    readHighScore stored ≤ readHighScore (endTheGame stored score) ∧
    (endTheGame stored score = stored ∨
      (readHighScore stored < score ∧ endTheGame stored score = some score)) ∧
    (∀ scores : List Nat,
      readHighScore stored ≤ readHighScore (scores.foldl endTheGame stored)) := by
  refine ⟨readHighScore_le_endTheGame stored score, ?_, fun scores => readHighScore_le_foldl scores stored⟩
  unfold endTheGame
  split
  · next hlt => exact Or.inr ⟨hlt, rfl⟩
  · exact Or.inl rfl

/-- Claim C8: in both modes a typed answer is judged correct exactly when
the input, after trimming leading and trailing whitespace, equals the
question answer under case-insensitive comparison (for the Challenge
handler, under the standing fact that a generated answer is never the empty
string). -/
theorem answer_check_spec (input answer : String) (h : answer ≠ "") :
    (handleCheckSpelling input answer = true ↔
      jsToLower (jsTrim input) = jsToLower answer) ∧
    (handleCheckAnswer input answer = some true ↔
      jsToLower (jsTrim input) = jsToLower answer) := by
  constructor
  · simp [handleCheckSpelling]
  · unfold handleCheckAnswer
    by_cases ht : jsTrim input = ""
    · rw [if_pos ht]
      constructor
      · intro hcon
        exact Option.noConfusion hcon
      · intro heq
        rw [ht] at heq
        have h0 : jsToLower "" = "" := by decide
        exact absurd (jsToLower_eq_empty (heq.symm.trans h0)) h
    · simp [ht]

/-- Witness for C8 at a concrete input with surrounding whitespace and
mixed case. -/
theorem answer_check_spec_witness :
    ("unbelievable" : String) ≠ "" ∧
    ((handleCheckSpelling "  Unbelievable " "unbelievable" = true ↔
      jsToLower (jsTrim "  Unbelievable ") = jsToLower "unbelievable") ∧
    (handleCheckAnswer "  Unbelievable " "unbelievable" = some true ↔
      jsToLower (jsTrim "  Unbelievable ") = jsToLower "unbelievable")) :=
  ⟨by decide, answer_check_spec "  Unbelievable " "unbelievable" (by decide)⟩

/-- Claim C9: in Challenge mode a correct answer awards exactly 10 points
when no hint was used for the current question and exactly 5 when one was;
requesting a hint never changes the score, and a second hint request on the
same question is a no-op, so at most one hint can be taken per question. -/
theorem challenge_scoring (s : ChallengeState) (input answer : String)
    (hne : jsTrim input ≠ "")
    (hok : jsToLower (jsTrim input) = jsToLower answer) :
    ((challengeStep s (GameEvent.check input answer)).score
      = s.score + (if s.hintUsed then 5 else 10)) ∧
    ((challengeStep s GameEvent.hint).score = s.score) ∧
    (challengeStep (challengeStep s GameEvent.hint) GameEvent.hint
      = challengeStep s GameEvent.hint) := by
  have hj : handleCheckAnswer input answer = some true := by
    unfold handleCheckAnswer
    simp [hne, hok]
  refine ⟨?_, ?_, ?_⟩
  · simp [challengeStep, hj]
  · unfold challengeStep
    by_cases hu : s.hintUsed <;> simp [hu]
  · unfold challengeStep
    by_cases hu : s.hintUsed <;> simp [hu]

/-- Witness for C9 at the start state with the matching answer "act". -/
theorem challenge_scoring_witness :
    (jsTrim "act" ≠ "" ∧ jsToLower (jsTrim "act") = jsToLower "act") ∧
    (((challengeStep startState (GameEvent.check "act" "act")).score
      = startState.score + (if startState.hintUsed then 5 else 10)) ∧
    ((challengeStep startState GameEvent.hint).score = startState.score) ∧
    (challengeStep (challengeStep startState GameEvent.hint) GameEvent.hint
      = challengeStep startState GameEvent.hint)) :=
  ⟨⟨by decide, by decide⟩,
    challenge_scoring startState "act" "act" (by decide) (by decide)⟩

/-- Claim C10: in Challenge mode the score starts at 0, the skip penalty is
clamped through `Math.max(0, score - 2)`, and the score is non-negative in
every reachable state. -/
theorem challenge_score_nonneg :
    startState.score = 0 ∧
    (∀ s : ChallengeState,
      (challengeStep s GameEvent.skip).score = max 0 (s.score - 2)) ∧
    (∀ events : List GameEvent,
      0 ≤ ((events.foldl challengeStep startState)).score) := by
  refine ⟨rfl, fun s => rfl, ?_⟩
  have hfold : ∀ (events : List GameEvent) (s : ChallengeState),
      0 ≤ s.score → 0 ≤ ((events.foldl challengeStep s)).score := by
    intro events
    induction events with
    | nil => intro s hs; exact hs
    | cons e rest ih =>
      intro s hs
      exact ih _ (challengeStep_score_nonneg s e hs)
  intro events
  exact hfold events startState (by decide)
